import Mathlib

/-!
Shallow embedding of the in-memory task-tracking HTTP service
(`server.go`, plus the alternate revision of the same file kept in the
repository) and proofs about its store and handler pipeline.

Modelling conventions:
* Go `int` is modelled by `Int`; the program only compares IDs for
  equality and order (never does arithmetic on them), so no wraparound
  modelling is needed.
* The Go map `map[int]Task` is modelled by an association list
  `List (Int × Task)`; lookup returns the first binding, insertion of an
  absent key conses a binding, assignment to a present key rewrites the
  binding in place, and `delete` filters the key out.  Iteration order of
  a Go map is unspecified, and no claim depends on it.
* Every store method of `server.go` acquires the store mutex for its whole
  check-then-act sequence, so each method is modelled as a pure function
  from the map (plus arguments) to the Go return values paired with the
  post-state of the map.
* Go errors built with `fmt.Errorf` are modelled by an inductive error
  type carrying the id the message interpolates.
* The HTTP layer delivers method, path `{id}` segment and decoded body to
  the handlers; a body that fails JSON decoding is modelled as `none`.
  Handlers are modelled as functions returning the HTTP status code and
  the post-state of the store; response-body serialization has no logic
  and is not modelled.
-/

namespace TodoServer

/-- `TaskStatus` is a Go string type; arbitrary strings inhabit it. -/
abbrev TaskStatus := String

def StatusNotStarted : TaskStatus := "not started"

def StatusInProgress : TaskStatus := "in progress"

def StatusCompleted : TaskStatus := "completed"

/-- `func (s TaskStatus) IsValid() bool` from `server.go`. -/
def TaskStatus.IsValid (s : TaskStatus) : Bool :=
  s = StatusNotStarted || s = StatusInProgress || s = StatusCompleted

/-- The `Task` struct of `server.go`. -/
structure Task where
  ID : Int
  Title : String
  Description : String
  Status : TaskStatus
deriving DecidableEq, Repr

/-- The `White_Space` test of Go's `unicode.IsSpace`, used by
`strings.TrimSpace`: the Latin-1 space characters plus the Unicode
`White_Space` code points. -/
def goIsSpace (c : Char) : Bool :=
  c = '\t' || c = '\n' || c = '\x0b' || c = '\x0c' || c = '\r' || c = ' ' ||
  c.toNat = 0x85 || c.toNat = 0xA0 ||
  c.toNat = 0x1680 || (0x2000 ≤ c.toNat && c.toNat ≤ 0x200A) ||
  c.toNat = 0x2028 || c.toNat = 0x2029 || c.toNat = 0x202F ||
  c.toNat = 0x205F || c.toNat = 0x3000

/-- Go's `strings.TrimSpace` on the underlying character list: drop
white-space characters from the front, then from the back. -/
def trimList (l : List Char) : List Char :=
  ((l.dropWhile goIsSpace).reverse.dropWhile goIsSpace).reverse

/-- Go's `strings.TrimSpace`. -/
def trimSpace (s : String) : String :=
  String.mk (trimList s.data)

/-- `func (t *Task) Preprocess()` from `server.go`: trims `Title` and
`Description` in place; modelled functionally. -/
def Task.Preprocess (t : Task) : Task :=
  { t with Title := trimSpace t.Title, Description := trimSpace t.Description }

/-- The three `fmt.Errorf` outcomes of `func (t *Task) Validate() error`. -/
inductive ValidationError where
  | invalidID
  | emptyTitle
  | invalidStatus
deriving DecidableEq, Repr

/-- `func (t *Task) Validate() error` from `server.go`. -/
def Task.Validate (t : Task) : Except ValidationError Unit :=
  if t.ID ≤ 0 then Except.error ValidationError.invalidID
  else if t.Title = "" then Except.error ValidationError.emptyTitle
  else if !t.Status.IsValid then Except.error ValidationError.invalidStatus
  else Except.ok ()

/-- The `fmt.Errorf` outcomes of the store methods, carrying the id the
message interpolates: `"task with id %d already exists"` and
`"task with id %d not found"`. -/
inductive StoreError where
  | duplicateID (id : Int)
  | notFound (id : Int)
deriving DecidableEq, Repr

/-- Equality of modelled Go return values (`Except`) is decidable, so
concrete runs of the store operations can be checked by evaluation. -/
instance {ε α : Type} [DecidableEq ε] [DecidableEq α] : DecidableEq (Except ε α) := fun a b =>
  match a, b with
  | Except.error x, Except.error y =>
    if h : x = y then Decidable.isTrue (by rw [h])
    else Decidable.isFalse fun hc => h (by cases hc; rfl)
  | Except.ok x, Except.ok y =>
    if h : x = y then Decidable.isTrue (by rw [h])
    else Decidable.isFalse fun hc => h (by cases hc; rfl)
  | Except.error _, Except.ok _ => Decidable.isFalse fun hc => Except.noConfusion hc
  | Except.ok _, Except.error _ => Decidable.isFalse fun hc => Except.noConfusion hc

/-- The `tasks map[int]Task` field of `TaskStore`, as an association
list.  The mutex serializes every method, so methods are pure functions
of this state. -/
abbrev TaskStore := List (Int × Task)

/-- Go map lookup `ds.tasks[id]`: first binding of the key, if any. -/
def TaskStore.lookup : TaskStore → Int → Option Task
  | [], _ => none
  | p :: rest, k => if p.1 = k then some p.2 else TaskStore.lookup rest k

/-- Go map assignment `ds.tasks[k] = t` at a key already present:
rewrite the binding of `k` in place. -/
def TaskStore.assign (ds : TaskStore) (k : Int) (t : Task) : TaskStore :=
  ds.map fun p => if p.1 = k then (k, t) else p

/-- Go map assignment `ds.tasks[k] = t` at a key known to be absent:
add the binding. -/
def TaskStore.insert (ds : TaskStore) (k : Int) (t : Task) : TaskStore :=
  (k, t) :: ds

/-- Go `delete(ds.tasks, k)`: drop the binding of `k`. -/
def TaskStore.remove (ds : TaskStore) (k : Int) : TaskStore :=
  ds.filter fun p => p.1 != k

/-- `func (ds *TaskStore) CreateTask(task Task) error` from `server.go`
(both revisions are identical): error and post-state of the map. -/
def TaskStore.CreateTask (ds : TaskStore) (task : Task) : Except StoreError Unit × TaskStore :=
  match ds.lookup task.ID with
  | some _ => (Except.error (StoreError.duplicateID task.ID), ds)
  | none => (Except.ok (), ds.insert task.ID task)

/-- `func (ds *TaskStore) GetTask(id int) (Task, error)` from
`server.go`: read-only, the map is returned unchanged. -/
def TaskStore.GetTask (ds : TaskStore) (id : Int) : Except StoreError Task × TaskStore :=
  match ds.lookup id with
  | none => (Except.error (StoreError.notFound id), ds)
  | some task => (Except.ok task, ds)

/-- `func (ds *TaskStore) GetAllTasks() []Task` from `server.go`. -/
def TaskStore.GetAllTasks (ds : TaskStore) : List Task :=
  ds.map Prod.snd

/-- `func (ds *TaskStore) UpdateTask(id int, updated Task) (Task, error)`
from `server.go`: copies `Title`, `Description` and `Status` of `updated`
onto the stored record (keeping its `ID`), stores and returns the
post-update record. -/
def TaskStore.UpdateTask (ds : TaskStore) (id : Int) (updated : Task) :
    Except StoreError Task × TaskStore :=
  match ds.lookup id with
  | none => (Except.error (StoreError.notFound id), ds)
  | some task =>
    let task := { task with
      Title := updated.Title, Description := updated.Description, Status := updated.Status }
    (Except.ok task, ds.assign id task)

/-- `func (ds *TaskStore) DeleteTask(id int) error` from `server.go`. -/
def TaskStore.DeleteTask (ds : TaskStore) (id : Int) : Except StoreError Unit × TaskStore :=
  match ds.lookup id with
  | none => (Except.error (StoreError.notFound id), ds)
  | some _ => (Except.ok (), ds.remove id)

/-- Digit loop of Go's `strconv.Atoi`: every remaining character must be
a decimal digit. -/
def atoiDigits : List Char → Nat → Option Nat
  | [], acc => some acc
  | c :: rest, acc =>
    if c.isDigit then atoiDigits rest (acc * 10 + (c.toNat - '0'.toNat))
    else none

/-- Go's `strconv.Atoi`: optional sign followed by at least one decimal
digit.  (Go additionally reports a range error beyond the platform
`int`; the service's ids never reach that bound and no claim involves
such inputs, so the range check is not modelled.) -/
def goAtoi (s : String) : Option Int :=
  match s.data with
  | [] => none
  | c :: rest =>
    if c = '-' then
      match rest with
      | [] => none
      | _ => (atoiDigits rest 0).map fun n => -(n : Int)
    else if c = '+' then
      match rest with
      | [] => none
      | _ => (atoiDigits rest 0).map fun n => (n : Int)
    else (atoiDigits (c :: rest) 0).map fun n => (n : Int)

/-- `todosHandler` from `server.go` (the `/todos` route): HTTP method and
decoded body (`none` models a body that fails JSON decoding) to status
code and post-state of the store.  The GET branch serializes
`GetAllTasks`, which does not change the store. -/
def todosHandler (ts : TaskStore) (method : String) (body : Option Task) : Nat × TaskStore :=
  if method = "POST" then
    match body with
    | none => (400, ts)
    | some t =>
      let t := t.Preprocess
      match t.Validate with
      | Except.error _ => (400, ts)
      | Except.ok _ =>
        match ts.CreateTask t with
        | (Except.error _, ts') => (400, ts')
        | (Except.ok _, ts') => (201, ts')
  else if method = "GET" then (200, ts)
  else (405, ts)

/-- `todoHandler` from `server.go` (the `/todos/{id}` route).  The `id`
path segment is checked for presence and parsed *before* the method
switch, exactly as in the source. -/
def todoHandler (ts : TaskStore) (idStr : String) (method : String) (body : Option Task) :
    Nat × TaskStore :=
  if idStr = "" then (400, ts)
  else
    match goAtoi idStr with
    | none => (400, ts)
    | some id =>
      if method = "GET" then
        match ts.GetTask id with
        | (Except.error _, ts') => (404, ts')
        | (Except.ok _, ts') => (200, ts')
      else if method = "PUT" then
        match body with
        | none => (400, ts)
        | some t =>
          let t := t.Preprocess
          match t.Validate with
          | Except.error _ => (400, ts)
          | Except.ok _ =>
            match ts.UpdateTask id t with
            | (Except.error _, ts') => (404, ts')
            | (Except.ok _, ts') => (200, ts')
      else if method = "DELETE" then
        match ts.DeleteTask id with
        | (Except.error _, ts') => (404, ts')
        | (Except.ok _, ts') => (204, ts')
      else (405, ts)

namespace Part000

/-- `func (ds *TaskStore) UpdateTask(id int, updated Task) (Task, error)`
from the alternate revision `unnamed/part_000`: stores the whole
client-supplied record `updated` under the key `id` and returns the
*previous* record. -/
def UpdateTask (ds : TaskStore) (id : Int) (updated : Task) :
    Except StoreError Task × TaskStore :=
  match ds.lookup id with
  | none => (Except.error (StoreError.notFound id), ds)
  | some task => (Except.ok task, ds.assign id updated)

/-- `todosHandler` from the alternate revision `unnamed/part_000`: its
POST branch runs `Validate` *before* `Preprocess`, unlike `server.go`. -/
def todosHandler (ts : TaskStore) (method : String) (body : Option Task) : Nat × TaskStore :=
  if method = "POST" then
    match body with
    | none => (400, ts)
    | some t =>
      match t.Validate with
      | Except.error _ => (400, ts)
      | Except.ok _ =>
        let t := t.Preprocess
        match ts.CreateTask t with
        | (Except.error _, ts') => (400, ts')
        | (Except.ok _, ts') => (201, ts')
  else if method = "GET" then (200, ts)
  else (405, ts)

end Part000

/-- The key invariant of the store: every binding maps a key to a record
whose `ID` field equals that key. -/
def keyInv (ds : TaskStore) : Bool :=
  ds.all fun p => p.2.ID == p.1

/-- States reachable from the empty store through the `server.go` store
mutations. -/
inductive Reachable : TaskStore → Prop where
  | empty : Reachable []
  | create (t : Task) {s : TaskStore} : Reachable s → Reachable (s.CreateTask t).2
  | update (id : Int) (u : Task) {s : TaskStore} : Reachable s → Reachable (s.UpdateTask id u).2
  | delete (id : Int) {s : TaskStore} : Reachable s → Reachable (s.DeleteTask id).2

/-! ### Helper lemmas about the association-list map model -/

theorem lookup_assign_self {ds : TaskStore} {id : Int} {old : Task} (t : Task)
    (h : ds.lookup id = some old) : (ds.assign id t).lookup id = some t := by
  induction ds with
  | nil => simp [TaskStore.lookup] at h
  | cons p rest ih =>
    by_cases hp : p.1 = id
    · simp [TaskStore.lookup, TaskStore.assign, hp]
    · simp [TaskStore.lookup, TaskStore.assign, hp] at h ⊢
      exact ih h

theorem lookup_assign_ne {k id : Int} (ds : TaskStore) (t : Task) (h : k ≠ id) :
    (ds.assign id t).lookup k = ds.lookup k := by
  induction ds with
  | nil => simp [TaskStore.lookup, TaskStore.assign]
  | cons p rest ih =>
    by_cases hp : p.1 = id
    · have : id ≠ k := fun hik => h hik.symm
      simp [TaskStore.lookup, TaskStore.assign, hp, this]
      exact ih
    · simp only [TaskStore.assign, List.map_cons, if_neg hp]
      by_cases hk : p.1 = k
      · simp [TaskStore.lookup, hk]
      · simp only [TaskStore.lookup, if_neg hk]
        exact ih

theorem lookup_of_keyInv {ds : TaskStore} {id : Int} {v : Task}
    (hinv : keyInv ds = true) (h : ds.lookup id = some v) : v.ID = id := by
  induction ds with
  | nil => simp [TaskStore.lookup] at h
  | cons p rest ih =>
    simp only [keyInv, List.all_cons, Bool.and_eq_true, beq_iff_eq] at hinv
    by_cases hp : p.1 = id
    · simp only [TaskStore.lookup, if_pos hp] at h
      have hv : p.2 = v := Option.some_inj.mp h
      rw [← hv, hinv.1, hp]
    · simp only [TaskStore.lookup, if_neg hp] at h
      exact ih (by simp [keyInv, hinv.2]) h

theorem keyInv_assign {ds : TaskStore} {id : Int} {t : Task}
    (hinv : keyInv ds = true) (ht : t.ID = id) : keyInv (ds.assign id t) = true := by
  induction ds with
  | nil => simp [keyInv, TaskStore.assign]
  | cons p rest ih =>
    simp only [keyInv, List.all_cons, Bool.and_eq_true, beq_iff_eq] at hinv
    have ih' := ih hinv.2
    by_cases hp : p.1 = id
    · simp only [TaskStore.assign, List.map_cons, if_pos hp, keyInv, List.all_cons,
        Bool.and_eq_true, beq_iff_eq]
      exact ⟨ht, ih'⟩
    · simp only [TaskStore.assign, List.map_cons, if_neg hp, keyInv, List.all_cons,
        Bool.and_eq_true, beq_iff_eq]
      exact ⟨hinv.1, ih'⟩

theorem keyInv_remove {ds : TaskStore} (id : Int) (hinv : keyInv ds = true) :
    keyInv (ds.remove id) = true := by
  induction ds with
  | nil => simp [keyInv, TaskStore.remove]
  | cons p rest ih =>
    simp only [keyInv, List.all_cons, Bool.and_eq_true, beq_iff_eq] at hinv
    have ih' := ih hinv.2
    simp only [TaskStore.remove, List.filter_cons]
    by_cases hp : p.1 = id
    · simp only [hp, bne_self_eq_false]
      exact ih'
    · have : (p.1 != id) = true := by simp [bne_iff_ne, hp]
      simp only [this, if_pos]
      simp only [keyInv, List.all_cons, Bool.and_eq_true, beq_iff_eq]
      exact ⟨hinv.1, ih'⟩

/-! ### Helper lemmas about `dropWhile` and trimming -/

theorem dropWhile_head_false {α : Type} (q : α → Bool) :
    ∀ (l : List α) (a : α) (t : List α), l.dropWhile q = a :: t → q a = false := by
  intro l
  induction l with
  | nil => intro a t h; simp [List.dropWhile] at h
  | cons b r ih =>
    intro a t h
    by_cases hb : q b
    · rw [List.dropWhile_cons_of_pos hb] at h
      exact ih a t h
    · rw [List.dropWhile_cons_of_neg hb] at h
      injection h with h1 h2
      subst h1
      simpa using hb

theorem dropWhile_of_head_false {α : Type} {q : α → Bool} {a : α} (t : List α)
    (h : q a = false) : (a :: t).dropWhile q = a :: t :=
  List.dropWhile_cons_of_neg (by simp [h])

theorem dropWhile_decomp {α : Type} (q : α → Bool) (l : List α) :
    ∃ u, l = u ++ l.dropWhile q := by
  induction l with
  | nil => exact ⟨[], rfl⟩
  | cons b r ih =>
    by_cases hb : q b
    · obtain ⟨u, hu⟩ := ih
      exact ⟨b :: u, by rw [List.dropWhile_cons_of_pos hb, List.cons_append, ← hu]⟩
    · exact ⟨[], by rw [List.dropWhile_cons_of_neg hb, List.nil_append]⟩

theorem dropWhile_trimList (l : List Char) :
    (trimList l).dropWhile goIsSpace = trimList l := by
  cases hB : trimList l with
  | nil => simp
  | cons b t =>
    obtain ⟨u, hu⟩ := dropWhile_decomp goIsSpace (l.dropWhile goIsSpace).reverse
    have h2 : l.dropWhile goIsSpace = trimList l ++ u.reverse := by
      have h3 := congrArg List.reverse hu
      rw [List.reverse_reverse, List.reverse_append] at h3
      exact h3
    rw [hB, List.cons_append] at h2
    have hqb : goIsSpace b = false :=
      dropWhile_head_false goIsSpace l b (t ++ u.reverse) h2
    exact dropWhile_of_head_false t hqb

theorem trimList_idem (l : List Char) : trimList (trimList l) = trimList l := by
  have h1 : trimList (trimList l) =
      (((trimList l).dropWhile goIsSpace).reverse.dropWhile goIsSpace).reverse := rfl
  have h2 : (trimList l).reverse = (l.dropWhile goIsSpace).reverse.dropWhile goIsSpace :=
    List.reverse_reverse _
  rw [h1, dropWhile_trimList, h2, List.dropWhile_idempotent]
  rfl

theorem trimSpace_idem (s : String) : trimSpace (trimSpace s) = trimSpace s := by
  unfold trimSpace
  rw [trimList_idem]

/-! ### Claim theorems -/

/-- Claim C9: `Preprocess` is idempotent, and it changes only the `Title`
and `Description` fields (trimming their leading/trailing whitespace),
leaving `ID` and `Status` unchanged. -/
theorem preprocess_idem_trims_only_title_description (t : Task) :
    t.Preprocess.Preprocess = t.Preprocess ∧
    t.Preprocess.ID = t.ID ∧ t.Preprocess.Status = t.Status ∧
    t.Preprocess.Title = trimSpace t.Title ∧
    t.Preprocess.Description = trimSpace t.Description := by
  refine ⟨?_, rfl, rfl, rfl, rfl⟩
  simp [Task.Preprocess, trimSpace_idem]

/-- Claim C1: for every store and every id present in it,
`UpdateTask id newData` replaces exactly the stored `Title`,
`Description` and `Status` with `newData`'s fields, keeps the stored
record's `ID` (even when `newData.ID` differs from `id`), returns the
post-update record, and leaves every other key untouched; for an absent
id it fails with not-found and leaves the store unchanged. -/
theorem updateTask_replaces_fields_and_keeps_ID (s : TaskStore) (id : Int) (newData : Task) :
    (s.lookup id = none →
      s.UpdateTask id newData = (Except.error (StoreError.notFound id), s)) ∧
    (∀ old, s.lookup id = some old →
      (s.UpdateTask id newData).1 =
        Except.ok ⟨old.ID, newData.Title, newData.Description, newData.Status⟩ ∧
      (s.UpdateTask id newData).2.lookup id =
        some ⟨old.ID, newData.Title, newData.Description, newData.Status⟩ ∧
      ∀ k, k ≠ id → (s.UpdateTask id newData).2.lookup k = s.lookup k) := by
  constructor
  · intro h
    simp [TaskStore.UpdateTask, h]
  · intro old h
    simp only [TaskStore.UpdateTask, h]
    refine ⟨?_, lookup_assign_self _ h, fun k hk => lookup_assign_ne s _ hk⟩
    trivial

theorem updateTask_replaces_fields_and_keeps_ID_witness :
    (TaskStore.UpdateTask [(1, Task.mk 1 "Old" "d" StatusNotStarted)] 1
        (Task.mk 2 "New" "e" StatusCompleted)).1 =
      Except.ok (Task.mk 1 "New" "e" StatusCompleted) ∧
    TaskStore.lookup (TaskStore.UpdateTask [(1, Task.mk 1 "Old" "d" StatusNotStarted)] 1
        (Task.mk 2 "New" "e" StatusCompleted)).2 1 =
      some (Task.mk 1 "New" "e" StatusCompleted) ∧
    TaskStore.lookup (TaskStore.UpdateTask [(1, Task.mk 1 "Old" "d" StatusNotStarted)] 1
        (Task.mk 2 "New" "e" StatusCompleted)).2 5 =
      TaskStore.lookup [(1, Task.mk 1 "Old" "d" StatusNotStarted)] 5 := by
  have h := (updateTask_replaces_fields_and_keeps_ID
    [(1, Task.mk 1 "Old" "d" StatusNotStarted)] 1 (Task.mk 2 "New" "e" StatusCompleted)).2
    (Task.mk 1 "Old" "d" StatusNotStarted) (by decide)
  exact ⟨h.1, h.2.1, h.2.2 5 (by decide)⟩

/-- Claim C3: from any state in which `t.ID` is absent, the first
`CreateTask t` succeeds and inserts the record, the second fails with
duplicate-id, and any failing `CreateTask` leaves the store unchanged. -/
theorem createTask_twice (s : TaskStore) (t : Task) (habs : s.lookup t.ID = none) :
    s.CreateTask t = (Except.ok (), s.insert t.ID t) ∧
    (s.insert t.ID t).CreateTask t =
      (Except.error (StoreError.duplicateID t.ID), s.insert t.ID t) ∧
    ∀ s₂ : TaskStore, (s₂.lookup t.ID).isSome →
      s₂.CreateTask t = (Except.error (StoreError.duplicateID t.ID), s₂) := by
  refine ⟨by simp [TaskStore.CreateTask, habs], ?_, ?_⟩
  · simp [TaskStore.CreateTask, TaskStore.insert, TaskStore.lookup]
  · intro s₂ h
    cases hl : s₂.lookup t.ID with
    | none => rw [hl] at h; simp at h
    | some v => simp [TaskStore.CreateTask, hl]

theorem createTask_twice_witness :
    TaskStore.CreateTask [] (Task.mk 1 "A" "" StatusNotStarted) =
      (Except.ok (), [(1, Task.mk 1 "A" "" StatusNotStarted)]) ∧
    TaskStore.CreateTask [(1, Task.mk 1 "A" "" StatusNotStarted)]
        (Task.mk 1 "A" "" StatusNotStarted) =
      (Except.error (StoreError.duplicateID 1), [(1, Task.mk 1 "A" "" StatusNotStarted)]) ∧
    TaskStore.CreateTask [(1, Task.mk 1 "B" "x" StatusCompleted)]
        (Task.mk 1 "A" "" StatusNotStarted) =
      (Except.error (StoreError.duplicateID 1), [(1, Task.mk 1 "B" "x" StatusCompleted)]) := by
  have h := createTask_twice [] (Task.mk 1 "A" "" StatusNotStarted) (by decide)
  exact ⟨h.1, h.2.1, h.2.2 [(1, Task.mk 1 "B" "x" StatusCompleted)] (by decide)⟩

/-- Claim C5: for every store and every absent id, `GetTask`,
`UpdateTask` (for any payload) and `DeleteTask` each fail with not-found
and leave the store unchanged. -/
theorem absent_id_ops_fail_notFound (s : TaskStore) (id : Int) (h : s.lookup id = none) :
    s.GetTask id = (Except.error (StoreError.notFound id), s) ∧
    (∀ newData : Task, s.UpdateTask id newData = (Except.error (StoreError.notFound id), s)) ∧
    s.DeleteTask id = (Except.error (StoreError.notFound id), s) := by
  refine ⟨?_, fun newData => ?_, ?_⟩ <;>
    simp [TaskStore.GetTask, TaskStore.UpdateTask, TaskStore.DeleteTask, h]

theorem absent_id_ops_fail_notFound_witness :
    (TaskStore.GetTask [(2, Task.mk 2 "B" "" StatusInProgress)] 1 =
      (Except.error (StoreError.notFound 1), [(2, Task.mk 2 "B" "" StatusInProgress)])) ∧
    (TaskStore.UpdateTask [(2, Task.mk 2 "B" "" StatusInProgress)] 1
        (Task.mk 1 "N" "" StatusCompleted) =
      (Except.error (StoreError.notFound 1), [(2, Task.mk 2 "B" "" StatusInProgress)])) ∧
    (TaskStore.DeleteTask [(2, Task.mk 2 "B" "" StatusInProgress)] 1 =
      (Except.error (StoreError.notFound 1), [(2, Task.mk 2 "B" "" StatusInProgress)])) := by
  have h := absent_id_ops_fail_notFound [(2, Task.mk 2 "B" "" StatusInProgress)] 1 (by decide)
  exact ⟨h.1, h.2.1 (Task.mk 1 "N" "" StatusCompleted), h.2.2⟩

/-- Claim C10: two `CreateTask` calls with the same id on a store not
containing that id, serialized in either order by the store mutex:
whichever runs first succeeds and the other fails with duplicate-id. -/
theorem concurrent_create_same_id (s : TaskStore) (t1 t2 : Task)
    (hid : t1.ID = t2.ID) (habs : s.lookup t1.ID = none) :
    ((s.CreateTask t1).1 = Except.ok () ∧
      ((s.CreateTask t1).2.CreateTask t2).1 = Except.error (StoreError.duplicateID t2.ID)) ∧
    ((s.CreateTask t2).1 = Except.ok () ∧
      ((s.CreateTask t2).2.CreateTask t1).1 = Except.error (StoreError.duplicateID t1.ID)) := by
  have habs2 : s.lookup t2.ID = none := hid ▸ habs
  constructor
  · refine ⟨by simp [TaskStore.CreateTask, habs], ?_⟩
    have h1 : (s.CreateTask t1).2 = (t1.ID, t1) :: s := by
      simp [TaskStore.CreateTask, habs, TaskStore.insert]
    rw [h1]
    simp [TaskStore.CreateTask, TaskStore.lookup, hid]
  · refine ⟨by simp [TaskStore.CreateTask, habs2], ?_⟩
    have h2 : (s.CreateTask t2).2 = (t2.ID, t2) :: s := by
      simp [TaskStore.CreateTask, habs2, TaskStore.insert]
    rw [h2]
    simp [TaskStore.CreateTask, TaskStore.lookup, hid]

theorem concurrent_create_same_id_witness :
    ((TaskStore.CreateTask [] (Task.mk 7 "L" "" StatusNotStarted)).1 = Except.ok () ∧
      ((TaskStore.CreateTask [] (Task.mk 7 "L" "" StatusNotStarted)).2.CreateTask
          (Task.mk 7 "R" "" StatusCompleted)).1 =
        Except.error (StoreError.duplicateID 7)) ∧
    ((TaskStore.CreateTask [] (Task.mk 7 "R" "" StatusCompleted)).1 = Except.ok () ∧
      ((TaskStore.CreateTask [] (Task.mk 7 "R" "" StatusCompleted)).2.CreateTask
          (Task.mk 7 "L" "" StatusNotStarted)).1 =
        Except.error (StoreError.duplicateID 7)) :=
  concurrent_create_same_id [] (Task.mk 7 "L" "" StatusNotStarted)
    (Task.mk 7 "R" "" StatusCompleted) (by decide) (by decide)

/-- Claim C6: a task whose trimmed form passes validation and whose id is
absent is created by the POST pipeline of `server.go` (status 201), and a
subsequent `GetTask t.ID` returns the record equal to `t` after
whitespace trimming of title and description, i.e. `t.Preprocess`. -/
theorem post_create_then_get (s : TaskStore) (t : Task)
    (hval : t.Preprocess.Validate = Except.ok ())
    (habs : s.lookup t.ID = none) :
    todosHandler s "POST" (some t) = (201, s.insert t.ID t.Preprocess) ∧
    (TaskStore.GetTask (s.insert t.ID t.Preprocess) t.ID).1 = Except.ok t.Preprocess := by
  have hid : t.Preprocess.ID = t.ID := rfl
  have hc : s.CreateTask t.Preprocess = (Except.ok (), s.insert t.ID t.Preprocess) := by
    unfold TaskStore.CreateTask
    rw [hid, habs]
  constructor
  · simp [todosHandler, hval, hc]
  · unfold TaskStore.GetTask TaskStore.insert
    simp [TaskStore.lookup]

theorem post_create_then_get_witness :
    todosHandler [] "POST" (some (Task.mk 1 " A " " d " StatusNotStarted)) =
      (201, [(1, Task.mk 1 "A" "d" StatusNotStarted)]) ∧
    (TaskStore.GetTask [(1, Task.mk 1 "A" "d" StatusNotStarted)] 1).1 =
      Except.ok (Task.mk 1 "A" "d" StatusNotStarted) := by
  have h := post_create_then_get [] (Task.mk 1 " A " " d " StatusNotStarted)
    (by decide) (by decide)
  exact ⟨h.1, h.2⟩

/-- Claim C2 (evaluation at the failing input): on the payload with the
whitespace-only title `" "`, the `server.go` POST pipeline (Preprocess
before Validate) rejects with 400 and stores nothing, while the
`unnamed/part_000` POST pipeline (Validate before Preprocess) answers
201 and stores the task with an empty title. -/
theorem post_whitespace_only_title_variants :
    todosHandler [] "POST" (some (Task.mk 1 " " "" StatusNotStarted)) = (400, []) ∧
    Part000.todosHandler [] "POST" (some (Task.mk 1 " " "" StatusNotStarted)) =
      (201, [(1, Task.mk 1 "" "" StatusNotStarted)]) :=
  ⟨by decide, by decide⟩

/-- Claim C4 (amended): the two `UpdateTask` variants agree on success
versus failure (both fail with not-found exactly when `id` is absent,
leaving the store unchanged); on success the `server.go` variant stores
and returns the post-update record with the previously stored `ID`,
while the `part_000` variant stores the whole client record `newData`
and returns the pre-update record; the resulting stores coincide when
the stored record's `ID` and `newData.ID` both equal `id`. -/
theorem updateTask_variants_compared (s : TaskStore) (id : Int) (newData : Task) :
    (s.lookup id = none →
      s.UpdateTask id newData = (Except.error (StoreError.notFound id), s) ∧
      Part000.UpdateTask s id newData = (Except.error (StoreError.notFound id), s)) ∧
    (∀ old, s.lookup id = some old →
      s.UpdateTask id newData =
        (Except.ok (Task.mk old.ID newData.Title newData.Description newData.Status),
          s.assign id (Task.mk old.ID newData.Title newData.Description newData.Status)) ∧
      Part000.UpdateTask s id newData = (Except.ok old, s.assign id newData) ∧
      (old.ID = id → newData.ID = id →
        s.assign id (Task.mk old.ID newData.Title newData.Description newData.Status) =
          s.assign id newData)) := by
  constructor
  · intro h
    constructor <;> simp [TaskStore.UpdateTask, Part000.UpdateTask, h]
  · intro old h
    refine ⟨?_, ?_, ?_⟩
    · simp only [TaskStore.UpdateTask, h]
    · simp only [Part000.UpdateTask, h]
    · intro h1 h2
      have hmk : Task.mk old.ID newData.Title newData.Description newData.Status = newData := by
        cases newData with
        | mk i ti d st =>
          simp only at h2 ⊢
          rw [h1, h2]
      rw [hmk]

theorem updateTask_variants_differ :
    (TaskStore.UpdateTask [(1, Task.mk 1 "Old" "" StatusNotStarted)] 1
        (Task.mk 2 "New" "" StatusCompleted)).1 ≠
      (Part000.UpdateTask [(1, Task.mk 1 "Old" "" StatusNotStarted)] 1
        (Task.mk 2 "New" "" StatusCompleted)).1 ∧
    (TaskStore.UpdateTask [(1, Task.mk 1 "Old" "" StatusNotStarted)] 1
        (Task.mk 2 "New" "" StatusCompleted)).2 ≠
      (Part000.UpdateTask [(1, Task.mk 1 "Old" "" StatusNotStarted)] 1
        (Task.mk 2 "New" "" StatusCompleted)).2 :=
  ⟨by decide, by decide⟩

theorem updateTask_variants_compared_witness :
    TaskStore.UpdateTask [(1, Task.mk 1 "Old" "" StatusNotStarted)] 1
        (Task.mk 1 "New" "x" StatusCompleted) =
      (Except.ok (Task.mk 1 "New" "x" StatusCompleted),
        [(1, Task.mk 1 "New" "x" StatusCompleted)]) ∧
    Part000.UpdateTask [(1, Task.mk 1 "Old" "" StatusNotStarted)] 1
        (Task.mk 1 "New" "x" StatusCompleted) =
      (Except.ok (Task.mk 1 "Old" "" StatusNotStarted),
        [(1, Task.mk 1 "New" "x" StatusCompleted)]) ∧
    TaskStore.assign [(1, Task.mk 1 "Old" "" StatusNotStarted)] 1
        (Task.mk 1 "New" "x" StatusCompleted) =
      TaskStore.assign [(1, Task.mk 1 "Old" "" StatusNotStarted)] 1
        (Task.mk 1 "New" "x" StatusCompleted) := by
  have h := (updateTask_variants_compared [(1, Task.mk 1 "Old" "" StatusNotStarted)] 1
    (Task.mk 1 "New" "x" StatusCompleted)).2 (Task.mk 1 "Old" "" StatusNotStarted) (by decide)
  exact ⟨h.1, h.2.1, h.2.2 rfl rfl⟩

/-- Claim C7 (amended): on the collection route any method other than
POST and GET answers 405; on the item route any method other than GET,
PUT and DELETE answers 405 provided the `{id}` segment parses as an
integer — when it does not parse (missing or non-numeric) the handler
answers 400 whatever the method is, because the id check precedes the
method switch. -/
theorem method_not_allowed_statuses (s : TaskStore) (method idStr : String)
    (body : Option Task) (id : Int) :
    (method ≠ "POST" → method ≠ "GET" → todosHandler s method body = (405, s)) ∧
    (goAtoi idStr = some id → method ≠ "GET" → method ≠ "PUT" → method ≠ "DELETE" →
      todoHandler s idStr method body = (405, s)) ∧
    (goAtoi idStr = none → todoHandler s idStr method body = (400, s)) := by
  refine ⟨?_, ?_, ?_⟩
  · intro h1 h2
    simp [todosHandler, h1, h2]
  · intro hp h1 h2 h3
    have h0 : idStr ≠ "" := by
      intro he
      rw [he, show goAtoi "" = none from rfl] at hp
      exact Option.noConfusion hp
    simp [todoHandler, h0, hp, h1, h2, h3]
  · intro hp
    by_cases h0 : idStr = ""
    · simp [todoHandler, h0]
    · simp [todoHandler, h0, hp]

theorem unsupported_method_invalid_id_gives_400 :
    todoHandler [] "abc" "PATCH" none = (400, []) ∧
    todoHandler [] "abc" "PATCH" none ≠ (405, []) :=
  ⟨by decide, by decide⟩

theorem method_not_allowed_statuses_witness :
    todosHandler [] "PATCH" none = (405, []) ∧
    todoHandler [] "7" "PATCH" none = (405, []) ∧
    todoHandler [] "abd" "PATCH" none = (400, []) := by
  have h := method_not_allowed_statuses [] "PATCH" "7" none 7
  have h2 := method_not_allowed_statuses [] "PATCH" "abd" none 0
  exact ⟨h.1 (by decide) (by decide),
    h.2.1 (by decide) (by decide) (by decide) (by decide),
    h2.2.2 (by decide)⟩

/-! ### Key-invariant preservation lemmas (`server.go` operations) -/

theorem keyInv_create (s : TaskStore) (t : Task) (h : keyInv s = true) :
    keyInv (s.CreateTask t).2 = true := by
  cases hl : s.lookup t.ID with
  | some v => simpa [TaskStore.CreateTask, hl] using h
  | none =>
    simp only [TaskStore.CreateTask, hl, TaskStore.insert]
    simp only [keyInv, List.all_cons, Bool.and_eq_true, beq_self_eq_true, true_and]
    simpa [keyInv] using h

theorem keyInv_update (s : TaskStore) (id : Int) (u : Task) (h : keyInv s = true) :
    keyInv (s.UpdateTask id u).2 = true := by
  cases hl : s.lookup id with
  | none => simpa [TaskStore.UpdateTask, hl] using h
  | some old =>
    have hID : old.ID = id := lookup_of_keyInv h hl
    simp only [TaskStore.UpdateTask, hl]
    exact keyInv_assign h (by simpa using hID)

theorem keyInv_delete (s : TaskStore) (id : Int) (h : keyInv s = true) :
    keyInv (s.DeleteTask id).2 = true := by
  cases hl : s.lookup id with
  | none => simpa [TaskStore.DeleteTask, hl] using h
  | some v =>
    simp only [TaskStore.DeleteTask, hl]
    exact keyInv_remove id h

/-- Claim C8 (amended): every store state reachable from the empty store
via the `server.go` operations `CreateTask`, `UpdateTask` and
`DeleteTask` satisfies the key invariant (each binding's record carries
the binding's key as its `ID`), and each of these three operations
preserves the invariant.  (The `part_000` `UpdateTask` variant does not
preserve it.) -/
theorem keyInv_reachable_and_preserved :
    (∀ s : TaskStore, Reachable s → keyInv s = true) ∧
    ∀ (s : TaskStore) (t : Task) (id : Int) (u : Task), keyInv s = true →
      keyInv (s.CreateTask t).2 = true ∧ keyInv (s.UpdateTask id u).2 = true ∧
      keyInv (s.DeleteTask id).2 = true := by
  constructor
  · intro s hr
    induction hr with
    | empty => rfl
    | create t hr ih => exact keyInv_create _ t ih
    | update id u hr ih => exact keyInv_update _ id u ih
    | delete id hr ih => exact keyInv_delete _ id ih
  · intro s t id u h
    exact ⟨keyInv_create s t h, keyInv_update s id u h, keyInv_delete s id h⟩

theorem keyInv_reachable_and_preserved_witness :
    keyInv (TaskStore.CreateTask [] (Task.mk 3 "C" "" StatusInProgress)).2 = true ∧
    keyInv (TaskStore.UpdateTask [(4, Task.mk 4 "D" "" StatusNotStarted)] 4
        (Task.mk 9 "E" "" StatusCompleted)).2 = true := by
  have h1 := keyInv_reachable_and_preserved.1 _
    (Reachable.create (Task.mk 3 "C" "" StatusInProgress) Reachable.empty)
  have h2 := (keyInv_reachable_and_preserved.2 [(4, Task.mk 4 "D" "" StatusNotStarted)]
    (Task.mk 0 "" "" "") 4 (Task.mk 9 "E" "" StatusCompleted) (by decide)).2.1
  exact ⟨h1, h2⟩

theorem part000_update_breaks_keyInv :
    keyInv (TaskStore.CreateTask [] (Task.mk 1 "A" "" StatusNotStarted)).2 = true ∧
    keyInv (Part000.UpdateTask (TaskStore.CreateTask [] (Task.mk 1 "A" "" StatusNotStarted)).2
        1 (Task.mk 2 "B" "" StatusCompleted)).2 = false :=
  ⟨by decide, by decide⟩

end TodoServer
